import Mathlib

/-!
Verification of the CRTC change-reconciliation and commit engine of the
xrandr-rs crate (src/crtc.rs, src/screensize.rs, src/screen_resources.rs,
src/lib.rs).

Shallow embedding conventions:
* `u32` values are `Nat`; `i32` values are `Int`.  Where the Rust code can
  panic on an overflow or on an `assert!`, the embedded function returns
  `Except CommitError _` (a panic aborts the operation); debug-build
  semantics are assumed, so `u32` additions that would overflow are panics.
* The X server connection is replaced by explicit inputs (the list of
  `Crtc` records read from the backend, the mode table) and by an explicit
  trace of the mutating backend calls (`XRRSetCrtcConfig`,
  `XRRSetScreenSize`) that an operation issues, in order.  Read-only calls
  do not mutate the backend and are not traced.
* The physical-size (millimetre) computation of
  `ScreenSize::fitting_crtcs` divides `f32` display metrics; floating
  point is not modelled bit-exactly, so that derivation is abstracted as a
  function parameter `mm : Nat → Int` standing for
  `round(INCH_MM * px / dpi)` with the dpi read from the backend.
-/

set_option autoImplicit false

/-- Rust `enum Rotation` (src/crtc.rs lines 16-22).  The wire encoding
(1, 2, 4, 8) is irrelevant to the claims; only the four cases matter. -/
inductive Rotation
  | normal
  | left
  | inverted
  | right
deriving DecidableEq

/-- Rust `struct Crtc` (src/crtc.rs lines 52-65).  `XId` and `XTime` are
`c_ulong` identifiers and version tokens; both are embedded as `Nat`. -/
structure Crtc where
  xid : Nat
  timestamp : Nat
  x : Int
  y : Int
  width : Nat
  height : Nat
  mode : Nat
  rotation : Rotation
  outputs : List Nat
  rotations : Nat
  possible : List Nat
deriving DecidableEq

/-- Rust `struct Mode` (src/mode.rs lines 14-29).  The `rate : f64` field
(a derived refresh rate) is floating point and unused by every claim; it
is omitted from the embedding. -/
structure Mode where
  xid : Nat
  width : Nat
  height : Nat
  dot_clock : Nat
  hsync_tart : Nat
  hsync_end : Nat
  htotal : Nat
  hskew : Nat
  vsync_start : Nat
  vsync_end : Nat
  vtotal : Nat
  name : String
  flags : Nat
deriving DecidableEq

/-- Rust `struct ScreenSize` (src/screensize.rs lines 8-14): the field
declarations are `i32`, hence `Int`. -/
structure ScreenSize where
  width : Int
  width_mm : Int
  height : Int
  height_mm : Int
deriving DecidableEq

/-- Rust `struct Output` (src/output/mod.rs lines 19-35).  The
`properties` index map is decoded EDID metadata, outside the commit
engine; it is omitted.  All other fields are kept. -/
structure Output where
  xid : Nat
  timestamp : Nat
  is_primary : Bool
  crtc : Option Nat
  name : String
  mm_width : Nat
  mm_height : Nat
  connected : Bool
  subpixel_order : Nat
  crtcs : List Nat
  clones : List Nat
  modes : List Nat
  preferred_modes : List Nat
  current_mode : Option Nat
deriving DecidableEq

/-- The ways an embedded operation can abort: the `XrandrError` variants
reachable inside the commit engine (src/lib.rs lines 480-526), plus
`assertFailed`, which models a Rust panic (`assert!`, `unreachable!`, or
a debug-build arithmetic overflow). -/
inductive CommitError
  | crtcChanged (xid : Nat)
  | getModeInfo (xid : Nat)
  | noCrtcAvailable
  | noPreferredModes (xid : Nat)
  | assertFailed (msg : String)
deriving DecidableEq

/-- A mutating call to the X backend: `XRRSetCrtcConfig` (issued by
`ScreenResources::set_crtc_config` and `Crtc::apply`) or
`XRRSetScreenSize` (issued by `XHandle::set_screensize`). -/
inductive BackendCall
  | setCrtcConfig (crtc : Crtc)
  | setScreenSize (size : ScreenSize)
deriving DecidableEq

/-- The field mutations of `Crtc::disable` (src/crtc.rs lines 196-206)
without the trailing `apply` call; this is the `set_disable` used by the
disable pass of `apply_new_crtcs` (src/lib.rs line 401,
src/screen_resources.rs line 329). -/
def Crtc.set_disable (c : Crtc) : Crtc :=
  { c with x := 0, y := 0, mode := 0, rotation := Rotation.normal, outputs := [] }

/-- Rust `Crtc::disable` (src/crtc.rs lines 196-206): clear the fields,
then issue the single `XRRSetCrtcConfig` write of `Crtc::apply`
(src/crtc.rs lines 169-193). -/
def Crtc.disable (c : Crtc) : Crtc × List BackendCall :=
  let d := c.set_disable
  (d, [BackendCall.setCrtcConfig d])

/-- Rust `Crtc::rotated_size` (src/crtc.rs lines 210-222). -/
def Crtc.rotated_size (c : Crtc) (rot : Rotation) : Nat × Nat :=
  let w := c.width
  let h := c.height
  let old : Nat × Nat :=
    match c.rotation with
    | Rotation.normal => (w, h)
    | Rotation.inverted => (w, h)
    | Rotation.left => (h, w)
    | Rotation.right => (h, w)
  match rot with
  | Rotation.normal => (old.1, old.2)
  | Rotation.inverted => (old.1, old.2)
  | Rotation.left => (old.2, old.1)
  | Rotation.right => (old.2, old.1)

/-- Rust `Crtc::max_coordinates` (src/crtc.rs lines 225-232):
`(self.x as u32 + self.width, self.y as u32 + self.height)` guarded by
`assert!(self.x >= 0 && self.y >= 0)`; the `u32` additions overflow
(panic) at `2^32`.  `none` models the panic. -/
def Crtc.max_coordinates (c : Crtc) : Option (Nat × Nat) :=
  if 0 ≤ c.x ∧ 0 ≤ c.y then
    if c.x.toNat + c.width < 4294967296 ∧ c.y.toNat + c.height < 4294967296 then
      some (c.x.toNat + c.width, c.y.toNat + c.height)
    else none
  else none

/-- Rust `Crtc::offset` (src/crtc.rs lines 235-247): the sums are exact
(`i64` arithmetic on `i32` values), then
`assert!(x < i32::MAX as i64 && y < i32::MAX as i64)` and
`assert!(x >= 0 && y >= 0)`. -/
def Crtc.offset (c : Crtc) (dx dy : Int) : Except CommitError Crtc :=
  let x := c.x + dx
  let y := c.y + dy
  if ¬(x < 2147483647 ∧ y < 2147483647) then
    Except.error (CommitError.assertFailed "This offset would cause integer overflow")
  else if ¬(0 ≤ x ∧ 0 ≤ y) then
    Except.error (CommitError.assertFailed "Invalid coordinates after offset")
  else
    Except.ok { c with x := x, y := y }

/-- Minimum of a list of integers, 0 for the empty list.  Models
`iter().min().unwrap()` for the non-empty lists it is applied to. -/
def intMin : List Int → Int
  | [] => 0
  | x :: xs => xs.foldl min x

/-- The `left = crtcs.iter().map(|p| p.x).min().unwrap()` of
`normalize_positions` (src/crtc.rs line 73). -/
def minX (crtcs : List Crtc) : Int :=
  intMin (crtcs.map Crtc.x)

/-- The `top = crtcs.iter().map(|p| p.y).min().unwrap()` of
`normalize_positions` (src/crtc.rs line 74). -/
def minY (crtcs : List Crtc) : Int :=
  intMin (crtcs.map Crtc.y)

/-- The `for c in &mut crtcs { c.offset((-left, -top)) }` loop of
`normalize_positions` (src/crtc.rs lines 77-79): sequential, aborting at
the first panicking `offset`. -/
def offsetAll (dx dy : Int) : List Crtc → Except CommitError (List Crtc)
  | [] => Except.ok []
  | c :: cs =>
    match c.offset dx dy with
    | Except.error e => Except.error e
    | Except.ok c' =>
      match offsetAll dx dy cs with
      | Except.error e => Except.error e
      | Except.ok cs' => Except.ok (c' :: cs')

/-- Rust `normalize_positions` (src/crtc.rs lines 70-80).  The early
return compares `(top, left) == (0, 0)`. -/
def normalize_positions (crtcs : List Crtc) : Except CommitError (List Crtc) :=
  if crtcs.isEmpty then Except.ok crtcs
  else
    let left := minX crtcs
    let top := minY crtcs
    if top = 0 ∧ left = 0 then Except.ok crtcs
    else offsetAll (-left) (-top) crtcs

/-- Rust `ScreenSize::fits_crtc` (src/screensize.rs lines 31-34):
`max_coordinates` of the crtc compared against the size; `none` models
the panic of `max_coordinates` on a non-normalized crtc. -/
def ScreenSize.fits_crtc (s : ScreenSize) (c : Crtc) : Option Bool :=
  match c.max_coordinates with
  | none => none
  | some m => some (decide ((m.1 : Int) ≤ s.width ∧ (m.2 : Int) ≤ s.height))

/-- Maximum of a list of naturals with seed 0; for a non-empty list this
equals `iter().max().unwrap()`. -/
def natMaxList (l : List Nat) : Nat :=
  l.foldl max 0

/-- The `max_coordinates` of every crtc in order, aborting at the first
panic; the two `map(..).max().unwrap()` passes of `fitting_crtcs`
evaluate exactly these values. -/
def maxCoordsAll : List Crtc → Except CommitError (List (Nat × Nat))
  | [] => Except.ok []
  | c :: cs =>
    match c.max_coordinates with
    | none =>
      Except.error (CommitError.assertFailed "max_coordinates should be called on normalized crtc")
    | some m =>
      match maxCoordsAll cs with
      | Except.error e => Except.error e
      | Except.ok ms => Except.ok (m :: ms)

/-- Rust `ScreenSize::fitting_crtcs` (src/screensize.rs lines 37-61):
`assert!(!crtcs.is_empty())`, pixel width/height as the maxima of the
`max_coordinates`, and the millimetre fields derived from the backend's
display metrics through the abstracted `mm` computation. -/
def ScreenSize.fitting_crtcs (mm : Nat → Int) (crtcs : List Crtc) :
    Except CommitError ScreenSize :=
  if crtcs.isEmpty then Except.error (CommitError.assertFailed "Empty input vector")
  else
    match maxCoordsAll crtcs with
    | Except.error e => Except.error e
    | Except.ok maxes =>
      let width := natMaxList (maxes.map Prod.fst)
      let height := natMaxList (maxes.map Prod.snd)
      Except.ok
        { width := (width : Int),
          width_mm := mm width,
          height := (height : Int),
          height_mm := mm height }

namespace ScreenResources

/-- Rust `ScreenResources::mode` (src/screen_resources.rs lines 276-282):
first mode in the table with the requested xid, else `GetModeInfo`. -/
def mode (modes : List Mode) (xid : Nat) : Except CommitError Mode :=
  match modes.find? (fun m => m.xid == xid) with
  | some m => Except.ok m
  | none => Except.error (CommitError.getModeInfo xid)

/-- Rust `ScreenResources::enabled_crtcs` (src/screen_resources.rs lines
159-165): the crtcs whose `mode` is not the sentinel 0. -/
def enabled_crtcs (crtcs : List Crtc) : List Crtc :=
  crtcs.filter (fun c => c.mode != 0)

/-- The mode re-resolution loop of `ScreenResources::apply_new_crtcs`
(src/screen_resources.rs lines 313-317): for every new crtc, look its
`mode` up in the table and overwrite `width` and `height`. -/
def resolveModes (modes : List Mode) : List Crtc → Except CommitError (List Crtc)
  | [] => Except.ok []
  | c :: cs =>
    match mode modes c.mode with
    | Except.error e => Except.error e
    | Except.ok m =>
      match resolveModes modes cs with
      | Except.error e => Except.error e
      | Except.ok cs' => Except.ok ({ c with width := m.width, height := m.height } :: cs')

end ScreenResources

/-- The new-topology builder of `apply_new_crtcs` (src/lib.rs lines
377-389, src/screen_resources.rs lines 297-309): every old crtc is
replaced by the `changed` entry with the same xid when one exists, and
the `changed` entries whose xid is not among the old crtcs are appended.
The Rust code drains the leftovers from a `HashMap`, whose iteration
order is unspecified; this embedding appends them in `changed` order. -/
def buildNewCrtcs (old changed : List Crtc) : List Crtc :=
  old.map (fun c => ((changed.find? (fun d => d.xid == c.xid)).getD c)) ++
    changed.filter (fun d => ¬ old.any (fun c => c.xid == d.xid))

/-- The disable pass of `apply_new_crtcs` (src/lib.rs lines 398-404,
src/screen_resources.rs lines 326-332): every old crtc that does not fit
the new size is `set_disable`d and written out with `set_crtc_config`;
the mutated old list is kept for the later diff.  The trace records the
writes already issued even when a later `fits_crtc` panics. -/
def disablePass (sz : ScreenSize) :
    List Crtc → Except CommitError (List Crtc) × List BackendCall
  | [] => (Except.ok [], [])
  | c :: cs =>
    match sz.fits_crtc c with
    | none =>
      (Except.error
        (CommitError.assertFailed "max_coordinates should be called on normalized crtc"), [])
    | some true =>
      match disablePass sz cs with
      | (Except.ok cs', tr) => (Except.ok (c :: cs'), tr)
      | (Except.error e, tr) => (Except.error e, tr)
    | some false =>
      let d := c.set_disable
      match disablePass sz cs with
      | (Except.ok cs', tr) => (Except.ok (d :: cs'), BackendCall.setCrtcConfig d :: tr)
      | (Except.error e, tr) => (Except.error e, BackendCall.setCrtcConfig d :: tr)

/-- The conflict-check and diff loop of `apply_new_crtcs` (src/lib.rs
lines 409-424, src/screen_resources.rs lines 337-352):
`old.zip_longest(new)`, asserting equal xids on paired entries, aborting
with `CrtcChanged` when a paired new timestamp is older than the old one,
collecting the pairs that differ and every new-only entry; an old-only
entry is `unreachable!`. -/
def conflictDiff : List Crtc → List Crtc → Except CommitError (List Crtc)
  | [], [] => Except.ok []
  | [], n :: ns =>
    match conflictDiff [] ns with
    | Except.error e => Except.error e
    | Except.ok r => Except.ok (n :: r)
  | _ :: _, [] => Except.error (CommitError.assertFailed "invalid new_crtcs")
  | o :: os, n :: ns =>
    if o.xid ≠ n.xid then Except.error (CommitError.assertFailed "invalid new_crtcs")
    else if n.timestamp < o.timestamp then Except.error (CommitError.crtcChanged n.xid)
    else
      match conflictDiff os ns with
      | Except.error e => Except.error e
      | Except.ok r => Except.ok (if n ≠ o then n :: r else r)

/-- The commit pipeline shared verbatim by `XHandle::apply_new_crtcs`
(src/lib.rs lines 391-430) and `ScreenResources::apply_new_crtcs`
(src/screen_resources.rs lines 319-358), starting from the built new
topology: normalize, compute the covering size, disable the old crtcs
that do not fit, resize the screen, then conflict-check and apply the
changed crtcs.  The second component is the ordered trace of mutating
backend calls issued before the function returned. -/
def commitPhases (mm : Nat → Int) (old_crtcs new_crtcs : List Crtc) :
    Except CommitError Unit × List BackendCall :=
  match normalize_positions new_crtcs with
  | Except.error e => (Except.error e, [])
  | Except.ok normed =>
    match ScreenSize.fitting_crtcs mm normed with
    | Except.error e => (Except.error e, [])
    | Except.ok new_size =>
      match disablePass new_size old_crtcs with
      | (Except.error e, tr) => (Except.error e, tr)
      | (Except.ok old', tr) =>
        let tr := tr ++ [BackendCall.setScreenSize new_size]
        match conflictDiff old' normed with
        | Except.error e => (Except.error e, tr)
        | Except.ok to_apply =>
          (Except.ok (), tr ++ to_apply.map BackendCall.setCrtcConfig)

/-- Rust `XHandle::apply_new_crtcs` (src/lib.rs lines 372-430): build the
new topology from the freshly read enabled crtcs `old` and the caller's
`changed` crtcs, then run the commit pipeline.  This variant does not
re-resolve mode geometry. -/
def XHandle.apply_new_crtcs (mm : Nat → Int) (old changed : List Crtc) :
    Except CommitError Unit × List BackendCall :=
  commitPhases mm old (buildNewCrtcs old changed)

/-- Rust `ScreenResources::apply_new_crtcs` (src/screen_resources.rs
lines 292-358): as `XHandle::apply_new_crtcs`, but with the mode
re-resolution loop (lines 313-317) between the topology builder and the
normalization. -/
def ScreenResources.apply_new_crtcs (modes : List Mode) (mm : Nat → Int)
    (old changed : List Crtc) : Except CommitError Unit × List BackendCall :=
  match ScreenResources.resolveModes modes (buildNewCrtcs old changed) with
  | Except.error e => (Except.error e, [])
  | Except.ok resolved => commitPhases mm old resolved

/-- Rust `XHandle::find_available_crtc` (src/lib.rs lines 122-133): the
first crtc that can drive the output and currently drives nothing. -/
def XHandle.find_available_crtc (crtcs : List Crtc) (o : Output) :
    Except CommitError Crtc :=
  match crtcs.find? (fun c => c.possible.contains o.xid && c.outputs.isEmpty) with
  | some c => Except.ok c
  | none => Except.error CommitError.noCrtcAvailable

/-- Rust `XHandle::enable` (src/lib.rs lines 152-171).  `crtcs` and
`modes` are the crtc list and mode table the backend would return;
`apply_new_crtcs` re-reads the enabled subset of the same state. -/
def XHandle.enable (crtcs : List Crtc) (modes : List Mode) (mm : Nat → Int)
    (o : Output) : Except CommitError Unit × List BackendCall :=
  if o.current_mode.isSome then (Except.ok (), [])
  else
    match o.preferred_modes.head? with
    | none => (Except.error (CommitError.noPreferredModes o.xid), [])
    | some target =>
      match XHandle.find_available_crtc crtcs o with
      | Except.error e => (Except.error e, [])
      | Except.ok crtc =>
        match ScreenResources.mode modes target with
        | Except.error e => (Except.error e, [])
        | Except.ok m =>
          let c := { crtc with
                     mode := m.xid,
                     width := m.width,
                     height := m.height,
                     outputs := [o.xid] }
          XHandle.apply_new_crtcs mm (ScreenResources.enabled_crtcs crtcs) [c]

/-- The effect of one mutating backend call on the backend's state (its
crtc records and its virtual screen size): `XRRSetCrtcConfig` replaces
the record with the matching xid, `XRRSetScreenSize` replaces the size. -/
def runCall (st : List Crtc × ScreenSize) : BackendCall → List Crtc × ScreenSize
  | BackendCall.setCrtcConfig c =>
    (st.1.map (fun o => if o.xid = c.xid then c else o), st.2)
  | BackendCall.setScreenSize s => (st.1, s)

/-- The effect of a trace of mutating backend calls, first call first. -/
def runTrace (st : List Crtc × ScreenSize) (tr : List BackendCall) :
    List Crtc × ScreenSize :=
  tr.foldl runCall st

/-- A concrete stand-in for the abstracted millimetre derivation, used by
the concrete instances below. -/
def mmZero : Nat → Int := fun _ => 0

/-- Controller A of the spec's concrete scenario:
`(x=0, y=0, w=1920, h=1080)`. -/
def exampleCrtcA : Crtc :=
  { xid := 1, timestamp := 10, x := 0, y := 0, width := 1920, height := 1080,
    mode := 7, rotation := Rotation.normal, outputs := [101], rotations := 63,
    possible := [101, 102] }

/-- Controller B of the spec's concrete scenario:
`(x=1920, y=0, w=1280, h=1024)`. -/
def exampleCrtcB : Crtc :=
  { xid := 2, timestamp := 10, x := 1920, y := 0, width := 1280, height := 1024,
    mode := 8, rotation := Rotation.normal, outputs := [102], rotations := 63,
    possible := [101, 102] }

/-- Controller A moved away from the origin, for the normalization
instances. -/
def exampleShifted : Crtc :=
  { exampleCrtcA with x := 5, y := 3 }

/-- Controller A with a stale (older) timestamp, as a caller-supplied
change built from an outdated snapshot. -/
def exampleStale : Crtc :=
  { exampleCrtcA with timestamp := 5 }

/-- An old controller occupying 2000 times 1000 pixels. -/
def exampleBig : Crtc :=
  { xid := 1, timestamp := 10, x := 0, y := 0, width := 2000, height := 1000,
    mode := 7, rotation := Rotation.normal, outputs := [101], rotations := 63,
    possible := [101] }

/-- The same controller switched to the smaller mode 8. -/
def exampleSmall : Crtc :=
  { exampleBig with width := 1000, height := 500, mode := 8 }

/-- Mode 7: 2000 times 1000. -/
def exampleMode7 : Mode :=
  { xid := 7, width := 2000, height := 1000, dot_clock := 1, hsync_tart := 1,
    hsync_end := 1, htotal := 1, hskew := 0, vsync_start := 1, vsync_end := 1,
    vtotal := 1, name := "m7", flags := 0 }

/-- Mode 8: 1000 times 500. -/
def exampleMode8 : Mode :=
  { xid := 8, width := 1000, height := 500, dot_clock := 1, hsync_tart := 1,
    hsync_end := 1, htotal := 1, hskew := 0, vsync_start := 1, vsync_end := 1,
    vtotal := 1, name := "m8", flags := 0 }

/-- An output that is already enabled (its `current_mode` is set). -/
def exampleOutput : Output :=
  { xid := 101, timestamp := 10, is_primary := true, crtc := some 1,
    name := "eDP-1", mm_width := 300, mm_height := 200, connected := true,
    subpixel_order := 0, crtcs := [1], clones := [], modes := [7],
    preferred_modes := [7], current_mode := some 7 }

/-- Mode 7 in the 1920 times 1080 variant matching controller A. -/
def exampleModeA : Mode :=
  { xid := 7, width := 1920, height := 1080, dot_clock := 1, hsync_tart := 1,
    hsync_end := 1, htotal := 1, hskew := 0, vsync_start := 1, vsync_end := 1,
    vtotal := 1, name := "m7a", flags := 0 }

theorem foldl_min_le_init (l : List Int) (a : Int) : l.foldl min a ≤ a := by
  induction l generalizing a with
  | nil => exact le_refl a
  | cons x xs ih =>
    calc (x :: xs).foldl min a = xs.foldl min (min a x) := rfl
      _ ≤ min a x := ih (min a x)
      _ ≤ a := min_le_left a x

theorem foldl_min_le_mem (l : List Int) (a x : Int) (h : x ∈ l) :
    l.foldl min a ≤ x := by
  induction l generalizing a with
  | nil => cases h
  | cons y ys ih =>
    rcases List.mem_cons.mp h with rfl | hmem
    · calc (x :: ys).foldl min a = ys.foldl min (min a x) := rfl
        _ ≤ min a x := foldl_min_le_init ys (min a x)
        _ ≤ x := min_le_right a x
    · exact ih (min a y) hmem

theorem foldl_min_mem_or_init (l : List Int) (a : Int) :
    l.foldl min a ∈ l ∨ l.foldl min a = a := by
  induction l generalizing a with
  | nil => exact Or.inr rfl
  | cons x xs ih =>
    rcases ih (min a x) with hmem | heq
    · exact Or.inl (List.mem_cons_of_mem x hmem)
    · rcases min_cases a x with ⟨hv, _⟩ | ⟨hv, _⟩
      · exact Or.inr (by rw [show (x :: xs).foldl min a = xs.foldl min (min a x) from rfl,
          heq, hv])
      · refine Or.inl ?_
        rw [show (x :: xs).foldl min a = xs.foldl min (min a x) from rfl, heq, hv]
        exact List.mem_cons_self x xs

theorem intMin_le (l : List Int) (x : Int) (h : x ∈ l) : intMin l ≤ x := by
  cases l with
  | nil => cases h
  | cons y ys =>
    rcases List.mem_cons.mp h with rfl | hmem
    · exact foldl_min_le_init ys x
    · exact foldl_min_le_mem ys y x hmem

theorem intMin_mem (l : List Int) (h : l ≠ []) : intMin l ∈ l := by
  cases l with
  | nil => exact absurd rfl h
  | cons y ys =>
    rcases foldl_min_mem_or_init ys y with hmem | heq
    · exact List.mem_cons_of_mem y hmem
    · rw [intMin, heq]; exact List.mem_cons_self y ys

theorem foldl_min_map_add (l : List Int) (a d : Int) :
    (l.map (fun v => v + d)).foldl min (a + d) = l.foldl min a + d := by
  induction l generalizing a with
  | nil => rfl
  | cons x xs ih =>
    show (xs.map (fun v => v + d)).foldl min (min (a + d) (x + d)) =
      xs.foldl min (min a x) + d
    rw [min_add_add_right a x d]
    exact ih (min a x)

theorem intMin_map_add (l : List Int) (d : Int) (h : l ≠ []) :
    intMin (l.map (fun v => v + d)) = intMin l + d := by
  cases l with
  | nil => exact absurd rfl h
  | cons x xs =>
    show (xs.map (fun v => v + d)).foldl min (x + d) = xs.foldl min x + d
    exact foldl_min_map_add xs x d

theorem foldl_max_init_le (l : List Nat) (a : Nat) : a ≤ l.foldl max a := by
  induction l generalizing a with
  | nil => exact le_refl a
  | cons x xs ih =>
    calc a ≤ max a x := le_max_left a x
      _ ≤ xs.foldl max (max a x) := ih (max a x)
      _ = (x :: xs).foldl max a := rfl

theorem foldl_max_mem_le (l : List Nat) (a x : Nat) (h : x ∈ l) :
    x ≤ l.foldl max a := by
  induction l generalizing a with
  | nil => cases h
  | cons y ys ih =>
    rcases List.mem_cons.mp h with rfl | hmem
    · calc x ≤ max a x := le_max_right a x
        _ ≤ ys.foldl max (max a x) := foldl_max_init_le ys (max a x)
    · exact ih (max a y) hmem

theorem foldl_max_mem_or_init (l : List Nat) (a : Nat) :
    l.foldl max a ∈ l ∨ l.foldl max a = a := by
  induction l generalizing a with
  | nil => exact Or.inr rfl
  | cons x xs ih =>
    rcases ih (max a x) with hmem | heq
    · exact Or.inl (List.mem_cons_of_mem x hmem)
    · rcases max_cases a x with ⟨hv, _⟩ | ⟨hv, _⟩
      · exact Or.inr (by rw [show (x :: xs).foldl max a = xs.foldl max (max a x) from rfl,
          heq, hv])
      · refine Or.inl ?_
        rw [show (x :: xs).foldl max a = xs.foldl max (max a x) from rfl, heq, hv]
        exact List.mem_cons_self x xs

theorem natMaxList_ge (l : List Nat) (x : Nat) (h : x ∈ l) : x ≤ natMaxList l :=
  foldl_max_mem_le l 0 x h

theorem natMaxList_attained (l : List Nat) (h : l ≠ []) :
    ∃ x ∈ l, natMaxList l = x := by
  rcases foldl_max_mem_or_init l 0 with hmem | heq
  · exact ⟨natMaxList l, hmem, rfl⟩
  · cases l with
    | nil => exact absurd rfl h
    | cons y ys =>
      have hy : y ≤ natMaxList (y :: ys) :=
        natMaxList_ge (y :: ys) y (List.mem_cons_self y ys)
      have hz : natMaxList (y :: ys) = 0 := heq
      exact ⟨y, List.mem_cons_self y ys, by omega⟩

theorem Crtc.offset_ok_eq {c : Crtc} {dx dy : Int} {c' : Crtc}
    (h : c.offset dx dy = Except.ok c') :
    c' = { c with x := c.x + dx, y := c.y + dy } := by
  simp only [Crtc.offset] at h
  split at h
  · cases h
  · split at h
    · cases h
    · exact (Except.ok.inj h).symm

theorem offsetAll_ok_get {dx dy : Int} : ∀ {cs cs' : List Crtc},
    offsetAll dx dy cs = Except.ok cs' →
    cs'.length = cs.length ∧ ∀ i (h1 : i < cs.length) (h2 : i < cs'.length),
      cs'.get ⟨i, h2⟩ = { cs.get ⟨i, h1⟩ with
        x := (cs.get ⟨i, h1⟩).x + dx, y := (cs.get ⟨i, h1⟩).y + dy }
  | [], cs', h => by
    cases h
    exact ⟨rfl, fun i h1 _ => absurd h1 (Nat.not_lt_zero i)⟩
  | c :: cs, cs', h => by
    simp only [offsetAll] at h
    cases ho : c.offset dx dy with
    | error e => rw [ho] at h; cases h
    | ok c1 =>
      rw [ho] at h
      cases hr : offsetAll dx dy cs with
      | error e => rw [hr] at h; cases h
      | ok cs1 =>
        rw [hr] at h
        cases h
        obtain ⟨hlen, hget⟩ := offsetAll_ok_get hr
        refine ⟨by simp [hlen], fun i h1 h2 => ?_⟩
        cases i with
        | zero => exact Crtc.offset_ok_eq ho
        | succ n =>
          exact hget n (Nat.lt_of_succ_lt_succ h1) (Nat.lt_of_succ_lt_succ h2)

theorem offsetAll_ok_map_x {dx dy : Int} : ∀ {cs cs' : List Crtc},
    offsetAll dx dy cs = Except.ok cs' →
    cs'.map Crtc.x = cs.map (fun c => c.x + dx)
  | [], cs', h => by cases h; rfl
  | c :: cs, cs', h => by
    simp only [offsetAll] at h
    cases ho : c.offset dx dy with
    | error e => rw [ho] at h; cases h
    | ok c1 =>
      rw [ho] at h
      cases hr : offsetAll dx dy cs with
      | error e => rw [hr] at h; cases h
      | ok cs1 =>
        rw [hr] at h
        cases h
        have hc1 : c1.x = c.x + dx := by rw [Crtc.offset_ok_eq ho]
        simp [hc1, offsetAll_ok_map_x hr]

theorem offsetAll_ok_map_y {dx dy : Int} : ∀ {cs cs' : List Crtc},
    offsetAll dx dy cs = Except.ok cs' →
    cs'.map Crtc.y = cs.map (fun c => c.y + dy)
  | [], cs', h => by cases h; rfl
  | c :: cs, cs', h => by
    simp only [offsetAll] at h
    cases ho : c.offset dx dy with
    | error e => rw [ho] at h; cases h
    | ok c1 =>
      rw [ho] at h
      cases hr : offsetAll dx dy cs with
      | error e => rw [hr] at h; cases h
      | ok cs1 =>
        rw [hr] at h
        cases h
        have hc1 : c1.y = c.y + dy := by rw [Crtc.offset_ok_eq ho]
        simp [hc1, offsetAll_ok_map_y hr]

theorem offsetAll_ok_length {dx dy : Int} {cs cs' : List Crtc}
    (h : offsetAll dx dy cs = Except.ok cs') : cs'.length = cs.length :=
  (offsetAll_ok_get h).1

theorem normalize_positions_cases {cs cs' : List Crtc}
    (h : normalize_positions cs = Except.ok cs') :
    cs' = cs ∨ offsetAll (-(minX cs)) (-(minY cs)) cs = Except.ok cs' := by
  simp only [normalize_positions] at h
  split at h
  · exact Or.inl (Except.ok.inj h).symm
  · split at h
    · exact Or.inl (Except.ok.inj h).symm
    · exact Or.inr h

theorem normalize_positions_min_zero {cs cs' : List Crtc} (hne : cs ≠ [])
    (h : normalize_positions cs = Except.ok cs') :
    minX cs' = 0 ∧ minY cs' = 0 := by
  have hmapne : cs.map Crtc.x ≠ [] := by
    cases cs with
    | nil => exact absurd rfl hne
    | cons a l => simp
  have hmapne' : cs.map Crtc.y ≠ [] := by
    cases cs with
    | nil => exact absurd rfl hne
    | cons a l => simp
  simp only [normalize_positions] at h
  split at h
  case isTrue hEmpty =>
    exact absurd (by simpa using hEmpty) hne
  case isFalse =>
    split at h
    case isTrue hcond =>
      cases h
      exact ⟨hcond.2, hcond.1⟩
    case isFalse hcond =>
      have hx := offsetAll_ok_map_x h
      have hy := offsetAll_ok_map_y h
      constructor
      · have : cs.map (fun c => c.x + -(minX cs)) =
            (cs.map Crtc.x).map (fun v => v + -(minX cs)) := by
          rw [List.map_map]; rfl
        rw [minX, hx, this, intMin_map_add (cs.map Crtc.x) (-(minX cs)) hmapne]
        rw [minX]; omega
      · have : cs.map (fun c => c.y + -(minY cs)) =
            (cs.map Crtc.y).map (fun v => v + -(minY cs)) := by
          rw [List.map_map]; rfl
        rw [minY, hy, this, intMin_map_add (cs.map Crtc.y) (-(minY cs)) hmapne']
        rw [minY]; omega

theorem normalize_positions_fixed {cs : List Crtc} (hne : cs ≠ [])
    (hx : minX cs = 0) (hy : minY cs = 0) :
    normalize_positions cs = Except.ok cs := by
  cases cs with
  | nil => exact absurd rfl hne
  | cons a l => simp [normalize_positions, hx, hy]

theorem normalize_positions_length {cs cs' : List Crtc}
    (h : normalize_positions cs = Except.ok cs') : cs'.length = cs.length := by
  rcases normalize_positions_cases h with rfl | hoff
  · rfl
  · exact offsetAll_ok_length hoff

theorem normalize_positions_get {cs cs' : List Crtc}
    (h : normalize_positions cs = Except.ok cs') :
    cs'.length = cs.length ∧ ∀ i (h1 : i < cs.length) (h2 : i < cs'.length),
      ∃ nx ny, cs'.get ⟨i, h2⟩ = { cs.get ⟨i, h1⟩ with x := nx, y := ny } := by
  rcases normalize_positions_cases h with rfl | hoff
  · exact ⟨rfl, fun i h1 h2 => ⟨_, _, rfl⟩⟩
  · obtain ⟨hlen, hget⟩ := offsetAll_ok_get hoff
    exact ⟨hlen, fun i h1 h2 => ⟨_, _, hget i h1 h2⟩⟩

theorem maxCoordsAll_ok : ∀ {cs : List Crtc} {ms : List (Nat × Nat)},
    maxCoordsAll cs = Except.ok ms →
    (∀ c ∈ cs, ∃ m ∈ ms, c.max_coordinates = some m) ∧
    (∀ m ∈ ms, ∃ c ∈ cs, c.max_coordinates = some m)
  | [], ms, h => by
    cases h
    exact ⟨fun c hc => absurd hc (List.not_mem_nil c),
      fun m hm => absurd hm (List.not_mem_nil m)⟩
  | c :: cs, ms, h => by
    simp only [maxCoordsAll] at h
    cases hm : c.max_coordinates with
    | none => rw [hm] at h; cases h
    | some m0 =>
      rw [hm] at h
      cases hr : maxCoordsAll cs with
      | error e => rw [hr] at h; cases h
      | ok ms1 =>
        rw [hr] at h
        cases h
        obtain ⟨hf, hb⟩ := maxCoordsAll_ok hr
        constructor
        · intro d hd
          rcases List.mem_cons.mp hd with rfl | hd'
          · exact ⟨m0, List.mem_cons_self m0 ms1, hm⟩
          · obtain ⟨m, hmmem, hcm⟩ := hf d hd'
            exact ⟨m, List.mem_cons_of_mem m0 hmmem, hcm⟩
        · intro m hmm
          rcases List.mem_cons.mp hmm with rfl | hm'
          · exact ⟨c, List.mem_cons_self c cs, hm⟩
          · obtain ⟨d, hdmem, hdm⟩ := hb m hm'
            exact ⟨d, List.mem_cons_of_mem c hdmem, hdm⟩

theorem build_entry_xid (c : Crtc) (changed : List Crtc) :
    ((changed.find? (fun d => d.xid == c.xid)).getD c).xid = c.xid := by
  cases hf : changed.find? (fun d => d.xid == c.xid) with
  | none => rfl
  | some d =>
    have hp := List.find?_some hf
    simpa using hp

theorem buildNewCrtcs_length (old changed : List Crtc) :
    old.length ≤ (buildNewCrtcs old changed).length := by
  simp only [buildNewCrtcs, List.length_append, List.length_map]
  exact Nat.le_add_right old.length _

theorem buildNewCrtcs_get (old changed : List Crtc) (i : Nat)
    (h1 : i < old.length) (h2 : i < (buildNewCrtcs old changed).length) :
    (buildNewCrtcs old changed).get ⟨i, h2⟩ =
      (changed.find? (fun d => d.xid == (old.get ⟨i, h1⟩).xid)).getD
        (old.get ⟨i, h1⟩) := by
  have hm : i < (old.map
      (fun c => ((changed.find? (fun d => d.xid == c.xid)).getD c))).length := by
    simpa using h1
  calc (buildNewCrtcs old changed).get ⟨i, h2⟩
      = (old.map (fun c => ((changed.find? (fun d => d.xid == c.xid)).getD c))).get
          ⟨i, hm⟩ := List.get_append i hm
    _ = _ := by rw [List.get_map]

theorem buildNewCrtcs_get_xid (old changed : List Crtc) (i : Nat)
    (h1 : i < old.length) (h2 : i < (buildNewCrtcs old changed).length) :
    ((buildNewCrtcs old changed).get ⟨i, h2⟩).xid = (old.get ⟨i, h1⟩).xid := by
  rw [buildNewCrtcs_get old changed i h1 h2]
  exact build_entry_xid (old.get ⟨i, h1⟩) changed

theorem buildNewCrtcs_nil (old : List Crtc) : buildNewCrtcs old [] = old := by
  simp [buildNewCrtcs]

theorem resolveModes_ok {modes : List Mode} : ∀ {cs cs' : List Crtc},
    ScreenResources.resolveModes modes cs = Except.ok cs' →
    cs'.length = cs.length ∧ ∀ i (h1 : i < cs.length) (h2 : i < cs'.length),
      ∃ m, ScreenResources.mode modes (cs.get ⟨i, h1⟩).mode = Except.ok m ∧
        cs'.get ⟨i, h2⟩ = { cs.get ⟨i, h1⟩ with width := m.width, height := m.height }
  | [], cs', h => by
    cases h
    exact ⟨rfl, fun i h1 _ => absurd h1 (Nat.not_lt_zero i)⟩
  | c :: cs, cs', h => by
    simp only [ScreenResources.resolveModes] at h
    cases hm : ScreenResources.mode modes c.mode with
    | error e => rw [hm] at h; cases h
    | ok m =>
      rw [hm] at h
      cases hr : ScreenResources.resolveModes modes cs with
      | error e => rw [hr] at h; cases h
      | ok cs1 =>
        rw [hr] at h
        cases h
        obtain ⟨hlen, hget⟩ := resolveModes_ok hr
        refine ⟨by simp [hlen], fun i h1 h2 => ?_⟩
        cases i with
        | zero => exact ⟨m, hm, rfl⟩
        | succ n =>
          exact hget n (Nat.lt_of_succ_lt_succ h1) (Nat.lt_of_succ_lt_succ h2)

theorem disablePass_ok {sz : ScreenSize} : ∀ {old old' : List Crtc}
    {tr : List BackendCall}, disablePass sz old = (Except.ok old', tr) →
    old'.length = old.length ∧
    (∀ i (h1 : i < old.length) (h2 : i < old'.length),
      (old'.get ⟨i, h2⟩ = old.get ⟨i, h1⟩ ∧
        sz.fits_crtc (old.get ⟨i, h1⟩) = some true) ∨
      (old'.get ⟨i, h2⟩ = (old.get ⟨i, h1⟩).set_disable ∧
        sz.fits_crtc (old.get ⟨i, h1⟩) = some false)) ∧
    (∀ e ∈ tr, ∃ c ∈ old, sz.fits_crtc c = some false ∧
      e = BackendCall.setCrtcConfig c.set_disable) ∧
    (∀ c ∈ old, sz.fits_crtc c = some false →
      BackendCall.setCrtcConfig c.set_disable ∈ tr)
  | [], old', tr, h => by
    cases h
    refine ⟨rfl, fun i h1 _ => absurd h1 (Nat.not_lt_zero i), ?_, ?_⟩
    · exact fun e he => absurd he (List.not_mem_nil e)
    · exact fun c hc => absurd hc (List.not_mem_nil c)
  | c :: cs, old', tr, h => by
    simp only [disablePass] at h
    cases hf : sz.fits_crtc c with
    | none => rw [hf] at h; simp at h
    | some b =>
      rw [hf] at h
      cases hr : disablePass sz cs with
      | mk r tr1 =>
        cases b
        case true =>
          rw [hr] at h
          cases r with
          | error e => simp at h
          | ok cs1 =>
            simp only [Prod.mk.injEq] at h
            obtain ⟨hL, hR⟩ := h
            obtain rfl := Except.ok.inj hL
            subst hR
            obtain ⟨hlen, hget, htr, hcomp⟩ := disablePass_ok hr
            refine ⟨by simp [hlen], fun i h1 h2 => ?_, ?_, ?_⟩
            · cases i with
              | zero => exact Or.inl ⟨rfl, hf⟩
              | succ n =>
                exact hget n (Nat.lt_of_succ_lt_succ h1) (Nat.lt_of_succ_lt_succ h2)
            · intro e he
              obtain ⟨d, hd, hdf, hde⟩ := htr e he
              exact ⟨d, List.mem_cons_of_mem c hd, hdf, hde⟩
            · intro d hd hdf
              rcases List.mem_cons.mp hd with rfl | hd'
              · rw [hf] at hdf; cases hdf
              · exact hcomp d hd' hdf
        case false =>
          rw [hr] at h
          cases r with
          | error e => simp at h
          | ok cs1 =>
            simp only [Prod.mk.injEq] at h
            obtain ⟨hL, hR⟩ := h
            obtain rfl := Except.ok.inj hL
            subst hR
            obtain ⟨hlen, hget, htr, hcomp⟩ := disablePass_ok hr
            refine ⟨by simp [hlen], fun i h1 h2 => ?_, ?_, ?_⟩
            · cases i with
              | zero => exact Or.inr ⟨rfl, hf⟩
              | succ n =>
                exact hget n (Nat.lt_of_succ_lt_succ h1) (Nat.lt_of_succ_lt_succ h2)
            · intro e he
              rcases List.mem_cons.mp he with rfl | he'
              · exact ⟨c, List.mem_cons_self c cs, hf, rfl⟩
              · obtain ⟨d, hd, hdf, hde⟩ := htr e he'
                exact ⟨d, List.mem_cons_of_mem c hd, hdf, hde⟩
            · intro d hd hdf
              rcases List.mem_cons.mp hd with rfl | hd'
              · exact List.mem_cons_self _ _
              · exact List.mem_cons_of_mem _ (hcomp d hd' hdf)

theorem disablePass_all_fit {sz : ScreenSize} : ∀ {old : List Crtc},
    (∀ c ∈ old, sz.fits_crtc c = some true) →
    disablePass sz old = (Except.ok old, [])
  | [], _ => rfl
  | c :: cs, h => by
    have hc : sz.fits_crtc c = some true := h c (List.mem_cons_self c cs)
    have hrest := disablePass_all_fit
      (fun d hd => h d (List.mem_cons_of_mem c hd))
    simp only [disablePass, hc, hrest]

theorem conflictDiff_self : ∀ cs : List Crtc, conflictDiff cs cs = Except.ok []
  | [] => rfl
  | c :: cs => by
    simp [conflictDiff, conflictDiff_self cs]

theorem conflictDiff_conflict : ∀ (old new : List Crtc),
    old.length ≤ new.length →
    (∀ i (h1 : i < old.length) (h2 : i < new.length),
      (old.get ⟨i, h1⟩).xid = (new.get ⟨i, h2⟩).xid) →
    (∃ i, ∃ (h1 : i < old.length) (h2 : i < new.length),
      (new.get ⟨i, h2⟩).timestamp < (old.get ⟨i, h1⟩).timestamp) →
    ∃ x, conflictDiff old new = Except.error (CommitError.crtcChanged x)
  | [], _, _, _, hconf => by
    rcases hconf with ⟨i, h1, _, _⟩
    exact absurd h1 (Nat.not_lt_zero i)
  | o :: os, [], hlen, _, _ => by simp at hlen
  | o :: os, n :: ns, hlen, hxid, hconf => by
    simp only [conflictDiff]
    have hx0 : o.xid = n.xid := hxid 0 (Nat.succ_pos _) (Nat.succ_pos _)
    rw [if_neg (by simp [hx0])]
    by_cases ht : n.timestamp < o.timestamp
    · rw [if_pos ht]
      exact ⟨n.xid, rfl⟩
    · rw [if_neg ht]
      have hconf' : ∃ i, ∃ (h1 : i < os.length) (h2 : i < ns.length),
          (ns.get ⟨i, h2⟩).timestamp < (os.get ⟨i, h1⟩).timestamp := by
        rcases hconf with ⟨i, h1, h2, hc⟩
        cases i with
        | zero => exact absurd hc ht
        | succ j =>
          exact ⟨j, Nat.lt_of_succ_lt_succ h1, Nat.lt_of_succ_lt_succ h2, hc⟩
      have hxid' : ∀ i (h1 : i < os.length) (h2 : i < ns.length),
          (os.get ⟨i, h1⟩).xid = (ns.get ⟨i, h2⟩).xid :=
        fun i h1 h2 => hxid (i + 1) (Nat.succ_lt_succ h1) (Nat.succ_lt_succ h2)
      obtain ⟨x, hx⟩ := conflictDiff_conflict os ns
        (Nat.le_of_succ_le_succ hlen) hxid' hconf'
      rw [hx]
      exact ⟨x, rfl⟩

theorem commitPhases_eq {mm : Nat → Int} {old newIn normed : List Crtc}
    {sz : ScreenSize} {old' : List Crtc} {dtr : List BackendCall}
    (h1 : normalize_positions newIn = Except.ok normed)
    (h2 : ScreenSize.fitting_crtcs mm normed = Except.ok sz)
    (h3 : disablePass sz old = (Except.ok old', dtr)) :
    commitPhases mm old newIn =
      match conflictDiff old' normed with
      | Except.error e => (Except.error e, dtr ++ [BackendCall.setScreenSize sz])
      | Except.ok ta => (Except.ok (),
          (dtr ++ [BackendCall.setScreenSize sz]) ++
            ta.map BackendCall.setCrtcConfig) := by
  simp only [commitPhases, h1, h2, h3]

theorem commitPhases_conflict {mm : Nat → Int} {old newIn normed : List Crtc}
    {sz : ScreenSize} {old' : List Crtc} {dtr : List BackendCall}
    (h1 : normalize_positions newIn = Except.ok normed)
    (h2 : ScreenSize.fitting_crtcs mm normed = Except.ok sz)
    (h3 : disablePass sz old = (Except.ok old', dtr))
    (hlen : old.length ≤ newIn.length)
    (hxid : ∀ i (ho : i < old.length) (hn : i < newIn.length),
      (old.get ⟨i, ho⟩).xid = (newIn.get ⟨i, hn⟩).xid)
    (hconf : ∃ i, ∃ (ho : i < old.length) (hn : i < normed.length),
      (normed.get ⟨i, hn⟩).timestamp < (old.get ⟨i, ho⟩).timestamp) :
    ∃ x, commitPhases mm old newIn =
      (Except.error (CommitError.crtcChanged x),
        dtr ++ [BackendCall.setScreenSize sz]) := by
  obtain ⟨hlenD, hgetD, _, _⟩ := disablePass_ok h3
  obtain ⟨hlenN, hgetN⟩ := normalize_positions_get h1
  have hlen2 : old'.length ≤ normed.length := by omega
  have hxid2 : ∀ i (hio : i < old'.length) (hin : i < normed.length),
      (old'.get ⟨i, hio⟩).xid = (normed.get ⟨i, hin⟩).xid := by
    intro i hio hin
    have hioO : i < old.length := by omega
    have hinN : i < newIn.length := by omega
    have e1 : (old'.get ⟨i, hio⟩).xid = (old.get ⟨i, hioO⟩).xid := by
      rcases hgetD i hioO hio with ⟨heq, _⟩ | ⟨heq, _⟩
      · rw [heq]
      · rw [heq]; rfl
    have e2 : (normed.get ⟨i, hin⟩).xid = (newIn.get ⟨i, hinN⟩).xid := by
      obtain ⟨nx, ny, heq⟩ := hgetN i hinN hin
      rw [heq]
    rw [e1, e2]
    exact hxid i hioO hinN
  have hconf2 : ∃ i, ∃ (hio : i < old'.length) (hin : i < normed.length),
      (normed.get ⟨i, hin⟩).timestamp < (old'.get ⟨i, hio⟩).timestamp := by
    rcases hconf with ⟨i, hio, hin, hc⟩
    have hio' : i < old'.length := by omega
    refine ⟨i, hio', hin, ?_⟩
    have hts : (old'.get ⟨i, hio'⟩).timestamp = (old.get ⟨i, hio⟩).timestamp := by
      rcases hgetD i hio hio' with ⟨heq, _⟩ | ⟨heq, _⟩
      · rw [heq]
      · rw [heq]; rfl
    rw [hts]
    exact hc
  obtain ⟨x, hx⟩ := conflictDiff_conflict old' normed hlen2 hxid2 hconf2
  refine ⟨x, ?_⟩
  rw [commitPhases_eq h1 h2 h3, hx]

theorem commitPhases_shape {mm : Nat → Int} {old newIn normed : List Crtc}
    {sz : ScreenSize} {old' : List Crtc} {dtr : List BackendCall}
    (h1 : normalize_positions newIn = Except.ok normed)
    (h2 : ScreenSize.fitting_crtcs mm normed = Except.ok sz)
    (h3 : disablePass sz old = (Except.ok old', dtr)) :
    ∃ rest, (commitPhases mm old newIn).2 =
      dtr ++ BackendCall.setScreenSize sz :: rest ∧
      ∀ e ∈ rest, ∃ c, e = BackendCall.setCrtcConfig c := by
  rw [commitPhases_eq h1 h2 h3]
  cases hcd : conflictDiff old' normed with
  | error e =>
    refine ⟨[], by simp, ?_⟩
    exact fun e he => absurd he (List.not_mem_nil e)
  | ok ta =>
    refine ⟨ta.map BackendCall.setCrtcConfig, by simp, ?_⟩
    intro e he
    obtain ⟨c, _, rfl⟩ := List.mem_map.mp he
    exact ⟨c, rfl⟩

/-- C8: for every controller `c` and rotation `R`, rotating `c` to `R`
(updating width, height and rotation as `XHandle::set_rotation` does) and
then computing `rotated_size` back at `c`'s original rotation returns the
original `(width, height)`; moreover `rotated_size` swaps the dimensions
exactly when one of the current and target rotations is Left or Right and
the other is not (Normal and Inverted never swap). -/
theorem rotated_size_roundtrip (c : Crtc) (r : Rotation) :
    ({ c with
        width := (c.rotated_size r).1,
        height := (c.rotated_size r).2,
        rotation := r } : Crtc).rotated_size c.rotation = (c.width, c.height) ∧
    c.rotated_size r =
      (if ((c.rotation = Rotation.left ∨ c.rotation = Rotation.right) ↔
          (r = Rotation.left ∨ r = Rotation.right))
        then (c.width, c.height) else (c.height, c.width)) := by
  obtain ⟨xid, ts, x, y, w, h, mode, rot, outs, rots, poss⟩ := c
  cases rot <;> cases r <;> exact ⟨rfl, rfl⟩

/-- C9: the disable transition (`Crtc::disable`) establishes the
disabled-state invariant atomically: the controller state carried by its
single backend write has `mode = 0` and an empty outputs list (so the
equivalence mode-sentinel iff outputs-empty holds of it), and such a
record is never in the enabled subset (`ScreenResources::enabled_crtcs`)
of any crtc list. -/
theorem disable_establishes_invariant (c : Crtc) :
    (c.disable).1.mode = 0 ∧ (c.disable).1.outputs = [] ∧
    ((c.disable).1.mode = 0 ↔ (c.disable).1.outputs = []) ∧
    (c.disable).2 = [BackendCall.setCrtcConfig (c.disable).1] ∧
    ∀ cs : List Crtc, (c.disable).1 ∉ ScreenResources.enabled_crtcs cs := by
  refine ⟨rfl, rfl, ⟨fun _ => rfl, fun _ => rfl⟩, rfl, ?_⟩
  intro cs hmem
  have h := List.mem_filter.mp hmem
  simp [Crtc.disable, Crtc.set_disable] at h

theorem disable_establishes_invariant_witness :
    (exampleCrtcA.disable).1.mode = 0 ∧
    (exampleCrtcA.disable).1 ∉ ScreenResources.enabled_crtcs [exampleCrtcA] :=
  ⟨(disable_establishes_invariant exampleCrtcA).1,
    (disable_establishes_invariant exampleCrtcA).2.2.2.2 [exampleCrtcA]⟩

/-- C10: for every output whose `current_mode` is set, `XHandle::enable`
returns `Ok(())` immediately with an empty trace of mutating backend
calls, so running that trace leaves every controller and the screen size
unchanged. -/
theorem enable_noop_when_enabled (crtcs : List Crtc) (modes : List Mode)
    (mm : Nat → Int) (o : Output) (h : o.current_mode.isSome = true) :
    XHandle.enable crtcs modes mm o = (Except.ok (), []) ∧
    ∀ st : List Crtc × ScreenSize,
      runTrace st (XHandle.enable crtcs modes mm o).2 = st := by
  have he : XHandle.enable crtcs modes mm o = (Except.ok (), []) := by
    simp [XHandle.enable, h]
  exact ⟨he, fun st => by rw [he]; rfl⟩

theorem enable_noop_when_enabled_witness :
    XHandle.enable [] [] mmZero exampleOutput = (Except.ok (), []) ∧
    runTrace ([], { width := 0, width_mm := 0, height := 0, height_mm := 0 })
      (XHandle.enable [] [] mmZero exampleOutput).2 =
      ([], { width := 0, width_mm := 0, height := 0, height_mm := 0 }) :=
  ⟨(enable_noop_when_enabled [] [] mmZero exampleOutput rfl).1,
    (enable_noop_when_enabled [] [] mmZero exampleOutput rfl).2
      ([], { width := 0, width_mm := 0, height := 0, height_mm := 0 })⟩

/-- C5 counterexample: with controller A `(0, 0, 1920, 1080)` and
controller B `(1920, 0, 1280, 1024)` the fitting size is
`(3200, 1080)`, but at `(3200, 1079)` the fits predicate is still TRUE
for controller B (`1920 + 1280 ≤ 3200` and `0 + 1024 ≤ 1079`), refuting
the claim that it becomes false for both A and B. -/
theorem fits_after_decrement_counterexample :
    ScreenSize.fitting_crtcs mmZero [exampleCrtcA, exampleCrtcB] =
      Except.ok { width := 3200, width_mm := 0, height := 1080, height_mm := 0 } ∧
    ScreenSize.fits_crtc
      { width := 3200, width_mm := 0, height := 1079, height_mm := 0 }
      exampleCrtcB = some true :=
  ⟨rfl, rfl⟩

/-- C5 (amended): for A `(0, 0, 1920, 1080)` and B `(1920, 0, 1280, 1024)`
the fitting size is `(width = 3200, height = 1080)` and the fits
predicate holds for B at that size; at `(3200, 1079)` the fits predicate
is false for A but remains true for B. -/
theorem concrete_fitting_scenario_amended :
    ScreenSize.fitting_crtcs mmZero [exampleCrtcA, exampleCrtcB] =
      Except.ok { width := 3200, width_mm := 0, height := 1080, height_mm := 0 } ∧
    ScreenSize.fits_crtc
      { width := 3200, width_mm := 0, height := 1080, height_mm := 0 }
      exampleCrtcB = some true ∧
    ScreenSize.fits_crtc
      { width := 3200, width_mm := 0, height := 1079, height_mm := 0 }
      exampleCrtcA = some false ∧
    ScreenSize.fits_crtc
      { width := 3200, width_mm := 0, height := 1079, height_mm := 0 }
      exampleCrtcB = some true :=
  ⟨rfl, rfl, rfl, rfl⟩

/-- C6 counterexample: an empty change set over the single normalized
controller A, which satisfies its own covering size, still issues one
backend call: the unconditional `set_screensize` resize (src/lib.rs line
405).  This refutes the claim that no resize call is issued. -/
theorem noop_commit_counterexample :
    XHandle.apply_new_crtcs mmZero [exampleCrtcA] [] =
      (Except.ok (), [BackendCall.setScreenSize
        { width := 1920, width_mm := 0, height := 1080, height_mm := 0 }]) ∧
    (XHandle.apply_new_crtcs mmZero [exampleCrtcA] []).2 ≠ [] :=
  ⟨rfl, by decide⟩

/-- C6 (amended): when the commit operation runs with an empty change set
over an already-normalized topology that satisfies its own covering
size, no disable call and no apply call is issued, but exactly one
resize call (to that covering size) is still issued. -/
theorem noop_commit_resizes_only (mm : Nat → Int) (old : List Crtc)
    (sz : ScreenSize)
    (h1 : normalize_positions old = Except.ok old)
    (h2 : ScreenSize.fitting_crtcs mm old = Except.ok sz)
    (h3 : ∀ c ∈ old, sz.fits_crtc c = some true) :
    XHandle.apply_new_crtcs mm old [] =
      (Except.ok (), [BackendCall.setScreenSize sz]) := by
  have hd := disablePass_all_fit h3
  show commitPhases mm old (buildNewCrtcs old []) = _
  rw [buildNewCrtcs_nil old, commitPhases_eq h1 h2 hd, conflictDiff_self old]
  simp

theorem noop_commit_resizes_only_witness :
    XHandle.apply_new_crtcs mmZero [exampleCrtcA] [] =
      (Except.ok (), [BackendCall.setScreenSize
        { width := 1920, width_mm := 0, height := 1080, height_mm := 0 }]) :=
  noop_commit_resizes_only mmZero [exampleCrtcA]
    { width := 1920, width_mm := 0, height := 1080, height_mm := 0 }
    rfl rfl (by decide)

/-- C7: `normalize_positions` is idempotent (a second application of a
successful normalization returns the same list), after one successful
application to a non-empty set the minimum x and minimum y are 0, and a
non-empty set whose minimum coordinates are already `(0, 0)` is returned
unchanged. -/
theorem normalize_positions_spec :
    (∀ cs cs' : List Crtc, normalize_positions cs = Except.ok cs' →
      normalize_positions cs' = Except.ok cs') ∧
    (∀ cs cs' : List Crtc, cs ≠ [] → normalize_positions cs = Except.ok cs' →
      minX cs' = 0 ∧ minY cs' = 0) ∧
    (∀ cs : List Crtc, cs ≠ [] → minX cs = 0 → minY cs = 0 →
      normalize_positions cs = Except.ok cs) := by
  refine ⟨?_, ?_, ?_⟩
  · intro cs cs' h
    cases cs with
    | nil =>
      obtain rfl := (Except.ok.inj h)
      rfl
    | cons a l =>
      have hne : (a :: l) ≠ [] := by simp
      obtain ⟨hx, hy⟩ := normalize_positions_min_zero hne h
      have hlen := normalize_positions_length h
      have hne' : cs' ≠ [] := by
        intro hnil
        rw [hnil] at hlen
        simp at hlen
      exact normalize_positions_fixed hne' hx hy
  · intro cs cs' hne h
    exact normalize_positions_min_zero hne h
  · intro cs hne hx hy
    exact normalize_positions_fixed hne hx hy

theorem normalize_positions_spec_witness :
    normalize_positions [exampleCrtcA] = Except.ok [exampleCrtcA] ∧
    (minX [exampleCrtcA] = 0 ∧ minY [exampleCrtcA] = 0) :=
  have h0 : normalize_positions [exampleShifted] = Except.ok [exampleCrtcA] := rfl
  ⟨normalize_positions_spec.1 [exampleShifted] [exampleCrtcA] h0,
    normalize_positions_spec.2.1 [exampleShifted] [exampleCrtcA] (by simp) h0⟩

/-- C4: for every set of controllers on which `fitting_crtcs` succeeds
(non-empty and normalized, or it panics), the computed size has
width equal to the maximum of `x + width` and height equal to the
maximum of `y + height` over the set (upper bound per the fits
predicate, attained by some member), `fits_crtc` holds for every member
at that size, and decrementing either dimension by 1 makes at least one
member fail `fits_crtc`. -/
theorem fitting_crtcs_minimal_cover (mm : Nat → Int) (crtcs : List Crtc)
    (sz : ScreenSize) (h : ScreenSize.fitting_crtcs mm crtcs = Except.ok sz) :
    (∀ c ∈ crtcs, sz.fits_crtc c = some true) ∧
    (∃ c ∈ crtcs, ∃ m, c.max_coordinates = some m ∧ sz.width = (m.1 : Int)) ∧
    (∃ c ∈ crtcs, ∃ m, c.max_coordinates = some m ∧ sz.height = (m.2 : Int)) ∧
    (∃ c ∈ crtcs,
      ScreenSize.fits_crtc { sz with width := sz.width - 1 } c = some false) ∧
    (∃ c ∈ crtcs,
      ScreenSize.fits_crtc { sz with height := sz.height - 1 } c = some false) := by
  simp only [ScreenSize.fitting_crtcs] at h
  split at h
  · cases h
  case isFalse hne0 =>
    cases hmc : maxCoordsAll crtcs with
    | error e => rw [hmc] at h; cases h
    | ok maxes =>
      rw [hmc] at h
      obtain rfl := (Except.ok.inj h)
      obtain ⟨hfwd, hbwd⟩ := maxCoordsAll_ok hmc
      have hne : crtcs ≠ [] := by
        intro hnil
        subst hnil
        exact hne0 rfl
      have hmne : maxes ≠ [] := by
        cases crtcs with
        | nil => exact absurd rfl hne
        | cons c cs =>
          obtain ⟨m, hm, _⟩ := hfwd c (List.mem_cons_self c cs)
          intro hnil
          rw [hnil] at hm
          exact absurd hm (List.not_mem_nil m)
      have hmapW : maxes.map Prod.fst ≠ [] := by
        cases maxes with
        | nil => exact absurd rfl hmne
        | cons m ms => simp
      have hmapH : maxes.map Prod.snd ≠ [] := by
        cases maxes with
        | nil => exact absurd rfl hmne
        | cons m ms => simp
      refine ⟨?_, ?_, ?_, ?_, ?_⟩
      · intro c hc
        obtain ⟨m, hmmem, hcm⟩ := hfwd c hc
        have h1 : m.1 ≤ natMaxList (maxes.map Prod.fst) :=
          natMaxList_ge (maxes.map Prod.fst) m.1
            (List.mem_map_of_mem Prod.fst hmmem)
        have h2 : m.2 ≤ natMaxList (maxes.map Prod.snd) :=
          natMaxList_ge (maxes.map Prod.snd) m.2
            (List.mem_map_of_mem Prod.snd hmmem)
        simp only [ScreenSize.fits_crtc, hcm, Option.some.injEq]
        rw [decide_eq_true_eq]
        exact ⟨by exact_mod_cast h1, by exact_mod_cast h2⟩
      · obtain ⟨v, hvmem, hWv⟩ := natMaxList_attained (maxes.map Prod.fst) hmapW
        obtain ⟨m, hmmem, hmv⟩ := List.mem_map.mp hvmem
        obtain ⟨c, hcmem, hcm⟩ := hbwd m hmmem
        refine ⟨c, hcmem, m, hcm, ?_⟩
        show ((natMaxList (maxes.map Prod.fst) : Nat) : Int) = (m.1 : Int)
        rw [hWv, ← hmv]
      · obtain ⟨v, hvmem, hHv⟩ := natMaxList_attained (maxes.map Prod.snd) hmapH
        obtain ⟨m, hmmem, hmv⟩ := List.mem_map.mp hvmem
        obtain ⟨c, hcmem, hcm⟩ := hbwd m hmmem
        refine ⟨c, hcmem, m, hcm, ?_⟩
        show ((natMaxList (maxes.map Prod.snd) : Nat) : Int) = (m.2 : Int)
        rw [hHv, ← hmv]
      · obtain ⟨v, hvmem, hWv⟩ := natMaxList_attained (maxes.map Prod.fst) hmapW
        obtain ⟨m, hmmem, hmv⟩ := List.mem_map.mp hvmem
        obtain ⟨c, hcmem, hcm⟩ := hbwd m hmmem
        refine ⟨c, hcmem, ?_⟩
        simp only [ScreenSize.fits_crtc, hcm, Option.some.injEq]
        rw [decide_eq_false_iff_not]
        intro hcontra
        obtain ⟨hle, _⟩ := hcontra
        have hm1 : m.1 = v := hmv
        omega
      · obtain ⟨v, hvmem, hHv⟩ := natMaxList_attained (maxes.map Prod.snd) hmapH
        obtain ⟨m, hmmem, hmv⟩ := List.mem_map.mp hvmem
        obtain ⟨c, hcmem, hcm⟩ := hbwd m hmmem
        refine ⟨c, hcmem, ?_⟩
        simp only [ScreenSize.fits_crtc, hcm, Option.some.injEq]
        rw [decide_eq_false_iff_not]
        intro hcontra
        obtain ⟨_, hle⟩ := hcontra
        have hm2 : m.2 = v := hmv
        omega

theorem fitting_crtcs_minimal_cover_witness :
    (∀ c ∈ [exampleCrtcA, exampleCrtcB],
      ScreenSize.fits_crtc
        { width := 3200, width_mm := 0, height := 1080, height_mm := 0 } c =
        some true) ∧
    (∃ c ∈ [exampleCrtcA, exampleCrtcB], ∃ m, c.max_coordinates = some m ∧
      ({ width := 3200, width_mm := 0, height := 1080,
         height_mm := 0 } : ScreenSize).width = (m.1 : Int)) ∧
    (∃ c ∈ [exampleCrtcA, exampleCrtcB], ∃ m, c.max_coordinates = some m ∧
      ({ width := 3200, width_mm := 0, height := 1080,
         height_mm := 0 } : ScreenSize).height = (m.2 : Int)) ∧
    (∃ c ∈ [exampleCrtcA, exampleCrtcB],
      ScreenSize.fits_crtc
        { width := 3200 - 1, width_mm := 0, height := 1080, height_mm := 0 } c =
        some false) ∧
    (∃ c ∈ [exampleCrtcA, exampleCrtcB],
      ScreenSize.fits_crtc
        { width := 3200, width_mm := 0, height := 1080 - 1, height_mm := 0 } c =
        some false) :=
  fitting_crtcs_minimal_cover mmZero [exampleCrtcA, exampleCrtcB]
    { width := 3200, width_mm := 0, height := 1080, height_mm := 0 } rfl

/-- C1: in a commit whose old and new topologies are paired positionally
(with matching xids by construction of the builder), if some paired new
controller's timestamp is older than the old controller's snapshot
timestamp, the commit aborts with the concurrent-modification error
`CrtcChanged` and the trace of mutating backend calls ends at the
resize: no apply-pass write reaches the backend.  Stated for both
`XHandle::apply_new_crtcs` and `ScreenResources::apply_new_crtcs`. -/
theorem commit_conflict_aborts :
    (∀ (mm : Nat → Int) (old changed normed : List Crtc) (sz : ScreenSize)
        (old' : List Crtc) (dtr : List BackendCall),
      normalize_positions (buildNewCrtcs old changed) = Except.ok normed →
      ScreenSize.fitting_crtcs mm normed = Except.ok sz →
      disablePass sz old = (Except.ok old', dtr) →
      (∃ i, ∃ (ho : i < old.length) (hn : i < normed.length),
        (normed.get ⟨i, hn⟩).timestamp < (old.get ⟨i, ho⟩).timestamp) →
      ∃ x, XHandle.apply_new_crtcs mm old changed =
        (Except.error (CommitError.crtcChanged x),
          dtr ++ [BackendCall.setScreenSize sz])) ∧
    (∀ (modes : List Mode) (mm : Nat → Int)
        (old changed resolved normed : List Crtc) (sz : ScreenSize)
        (old' : List Crtc) (dtr : List BackendCall),
      ScreenResources.resolveModes modes (buildNewCrtcs old changed) =
        Except.ok resolved →
      normalize_positions resolved = Except.ok normed →
      ScreenSize.fitting_crtcs mm normed = Except.ok sz →
      disablePass sz old = (Except.ok old', dtr) →
      (∃ i, ∃ (ho : i < old.length) (hn : i < normed.length),
        (normed.get ⟨i, hn⟩).timestamp < (old.get ⟨i, ho⟩).timestamp) →
      ∃ x, ScreenResources.apply_new_crtcs modes mm old changed =
        (Except.error (CommitError.crtcChanged x),
          dtr ++ [BackendCall.setScreenSize sz])) := by
  constructor
  · intro mm old changed normed sz old' dtr h1 h2 h3 hconf
    exact commitPhases_conflict h1 h2 h3 (buildNewCrtcs_length old changed)
      (fun i ho hn => (buildNewCrtcs_get_xid old changed i ho hn).symm) hconf
  · intro modes mm old changed resolved normed sz old' dtr hres h1 h2 h3 hconf
    obtain ⟨hlenR, hgetR⟩ := resolveModes_ok hres
    have hlen : old.length ≤ resolved.length := by
      have := buildNewCrtcs_length old changed
      omega
    have hxid : ∀ i (ho : i < old.length) (hn : i < resolved.length),
        (old.get ⟨i, ho⟩).xid = (resolved.get ⟨i, hn⟩).xid := by
      intro i ho hn
      have hb : i < (buildNewCrtcs old changed).length := by omega
      obtain ⟨m, hmok, heq⟩ := hgetR i hb hn
      rw [heq]
      exact (buildNewCrtcs_get_xid old changed i ho hb).symm
    obtain ⟨x, hx⟩ := commitPhases_conflict h1 h2 h3 hlen hxid hconf
    refine ⟨x, ?_⟩
    simp only [ScreenResources.apply_new_crtcs, hres]
    exact hx

theorem commit_conflict_aborts_witness :
    (∃ x, XHandle.apply_new_crtcs mmZero [exampleCrtcA] [exampleStale] =
      (Except.error (CommitError.crtcChanged x),
        [] ++ [BackendCall.setScreenSize
          { width := 1920, width_mm := 0, height := 1080, height_mm := 0 }])) ∧
    (∃ x, ScreenResources.apply_new_crtcs [exampleModeA] mmZero
        [exampleCrtcA] [exampleStale] =
      (Except.error (CommitError.crtcChanged x),
        [] ++ [BackendCall.setScreenSize
          { width := 1920, width_mm := 0, height := 1080, height_mm := 0 }])) :=
  ⟨commit_conflict_aborts.1 mmZero [exampleCrtcA] [exampleStale] [exampleStale]
      { width := 1920, width_mm := 0, height := 1080, height_mm := 0 }
      [exampleCrtcA] [] rfl rfl rfl
      ⟨0, by simp, by simp, by decide⟩,
    commit_conflict_aborts.2 [exampleModeA] mmZero [exampleCrtcA] [exampleStale]
      [exampleStale] [exampleStale]
      { width := 1920, width_mm := 0, height := 1080, height_mm := 0 }
      [exampleCrtcA] [] rfl rfl rfl rfl
      ⟨0, by simp, by simp, by decide⟩⟩

/-- C2: every commit execution that reaches the resize orders its
mutating backend calls in three phases: the trace is exactly the disable
pass's writes (each one a `set_crtc_config` of a disabled old controller
that does not fit the target size, and every non-fitting old controller
is among them), then the single `set_screensize` resize, then only
`set_crtc_config` applies.  No resize precedes a needed disable and no
apply precedes the resize.  Stated for both `XHandle::apply_new_crtcs`
and `ScreenResources::apply_new_crtcs`. -/
theorem commit_phase_order :
    (∀ (mm : Nat → Int) (old changed normed : List Crtc) (sz : ScreenSize)
        (old' : List Crtc) (dtr : List BackendCall),
      normalize_positions (buildNewCrtcs old changed) = Except.ok normed →
      ScreenSize.fitting_crtcs mm normed = Except.ok sz →
      disablePass sz old = (Except.ok old', dtr) →
      ∃ rest,
        (XHandle.apply_new_crtcs mm old changed).2 =
          dtr ++ BackendCall.setScreenSize sz :: rest ∧
        (∀ e ∈ dtr, ∃ c ∈ old, sz.fits_crtc c = some false ∧
          e = BackendCall.setCrtcConfig c.set_disable) ∧
        (∀ c ∈ old, sz.fits_crtc c = some false →
          BackendCall.setCrtcConfig c.set_disable ∈ dtr) ∧
        (∀ e ∈ rest, ∃ c, e = BackendCall.setCrtcConfig c)) ∧
    (∀ (modes : List Mode) (mm : Nat → Int)
        (old changed resolved normed : List Crtc) (sz : ScreenSize)
        (old' : List Crtc) (dtr : List BackendCall),
      ScreenResources.resolveModes modes (buildNewCrtcs old changed) =
        Except.ok resolved →
      normalize_positions resolved = Except.ok normed →
      ScreenSize.fitting_crtcs mm normed = Except.ok sz →
      disablePass sz old = (Except.ok old', dtr) →
      ∃ rest,
        (ScreenResources.apply_new_crtcs modes mm old changed).2 =
          dtr ++ BackendCall.setScreenSize sz :: rest ∧
        (∀ e ∈ dtr, ∃ c ∈ old, sz.fits_crtc c = some false ∧
          e = BackendCall.setCrtcConfig c.set_disable) ∧
        (∀ c ∈ old, sz.fits_crtc c = some false →
          BackendCall.setCrtcConfig c.set_disable ∈ dtr) ∧
        (∀ e ∈ rest, ∃ c, e = BackendCall.setCrtcConfig c)) := by
  constructor
  · intro mm old changed normed sz old' dtr h1 h2 h3
    obtain ⟨rest, htr, hrest⟩ := commitPhases_shape h1 h2 h3
    obtain ⟨_, _, hdtr, hcomp⟩ := disablePass_ok h3
    exact ⟨rest, htr, hdtr, hcomp, hrest⟩
  · intro modes mm old changed resolved normed sz old' dtr hres h1 h2 h3
    obtain ⟨rest, htr, hrest⟩ := commitPhases_shape h1 h2 h3
    obtain ⟨_, _, hdtr, hcomp⟩ := disablePass_ok h3
    refine ⟨rest, ?_, hdtr, hcomp, hrest⟩
    simp only [ScreenResources.apply_new_crtcs, hres]
    exact htr

theorem commit_phase_order_witness :
    (∃ rest,
      (XHandle.apply_new_crtcs mmZero [exampleBig] [exampleSmall]).2 =
        [BackendCall.setCrtcConfig exampleBig.set_disable] ++
          BackendCall.setScreenSize
            { width := 1000, width_mm := 0, height := 500, height_mm := 0 } ::
            rest ∧
      (∀ e ∈ [BackendCall.setCrtcConfig exampleBig.set_disable],
        ∃ c ∈ [exampleBig],
          ScreenSize.fits_crtc
            { width := 1000, width_mm := 0, height := 500, height_mm := 0 } c =
            some false ∧
          e = BackendCall.setCrtcConfig c.set_disable) ∧
      (∀ c ∈ [exampleBig],
        ScreenSize.fits_crtc
          { width := 1000, width_mm := 0, height := 500, height_mm := 0 } c =
          some false →
        BackendCall.setCrtcConfig c.set_disable ∈
          [BackendCall.setCrtcConfig exampleBig.set_disable]) ∧
      (∀ e ∈ rest, ∃ c, e = BackendCall.setCrtcConfig c)) ∧
    (∃ rest,
      (ScreenResources.apply_new_crtcs [exampleMode8] mmZero
          [exampleBig] [exampleSmall]).2 =
        [BackendCall.setCrtcConfig exampleBig.set_disable] ++
          BackendCall.setScreenSize
            { width := 1000, width_mm := 0, height := 500, height_mm := 0 } ::
            rest ∧
      (∀ e ∈ [BackendCall.setCrtcConfig exampleBig.set_disable],
        ∃ c ∈ [exampleBig],
          ScreenSize.fits_crtc
            { width := 1000, width_mm := 0, height := 500, height_mm := 0 } c =
            some false ∧
          e = BackendCall.setCrtcConfig c.set_disable) ∧
      (∀ c ∈ [exampleBig],
        ScreenSize.fits_crtc
          { width := 1000, width_mm := 0, height := 500, height_mm := 0 } c =
          some false →
        BackendCall.setCrtcConfig c.set_disable ∈
          [BackendCall.setCrtcConfig exampleBig.set_disable]) ∧
      (∀ e ∈ rest, ∃ c, e = BackendCall.setCrtcConfig c)) :=
  ⟨commit_phase_order.1 mmZero [exampleBig] [exampleSmall] [exampleSmall]
      { width := 1000, width_mm := 0, height := 500, height_mm := 0 }
      [exampleBig.set_disable]
      [BackendCall.setCrtcConfig exampleBig.set_disable] rfl rfl rfl,
    commit_phase_order.2 [exampleMode8] mmZero [exampleBig] [exampleSmall]
      [exampleSmall] [exampleSmall]
      { width := 1000, width_mm := 0, height := 500, height_mm := 0 }
      [exampleBig.set_disable]
      [BackendCall.setCrtcConfig exampleBig.set_disable] rfl rfl rfl rfl⟩

/-- C3: in `ScreenResources::apply_new_crtcs`, every controller of the
normalized new topology carries width and height re-resolved from the
mode table by its mode id (in particular every controller whose mode
changed), and this happens before the covering size is computed: the
size the commit resizes to is derived from that re-resolved topology. -/
theorem reconcile_resolves_mode_geometry :
    ∀ (modes : List Mode) (mm : Nat → Int)
      (old changed resolved normed : List Crtc) (sz : ScreenSize)
      (old' : List Crtc) (dtr : List BackendCall),
      ScreenResources.resolveModes modes (buildNewCrtcs old changed) =
        Except.ok resolved →
      normalize_positions resolved = Except.ok normed →
      ScreenSize.fitting_crtcs mm normed = Except.ok sz →
      disablePass sz old = (Except.ok old', dtr) →
      (∀ c ∈ normed, ∃ m,
        ScreenResources.mode modes c.mode = Except.ok m ∧
        c.width = m.width ∧ c.height = m.height) ∧
      ∃ rest, (ScreenResources.apply_new_crtcs modes mm old changed).2 =
        dtr ++ BackendCall.setScreenSize sz :: rest := by
  intro modes mm old changed resolved normed sz old' dtr hres h1 h2 h3
  obtain ⟨hlenR, hgetR⟩ := resolveModes_ok hres
  obtain ⟨hlenN, hgetN⟩ := normalize_positions_get h1
  constructor
  · intro c hc
    obtain ⟨⟨i, hin⟩, rfl⟩ := List.mem_iff_get.mp hc
    have hiR : i < resolved.length := by omega
    have hiB : i < (buildNewCrtcs old changed).length := by omega
    obtain ⟨nx, ny, heqN⟩ := hgetN i hiR hin
    obtain ⟨m, hmok, heqR⟩ := hgetR i hiB hiR
    refine ⟨m, ?_, ?_, ?_⟩
    · rw [heqN, heqR]
      exact hmok
    · rw [heqN, heqR]
    · rw [heqN, heqR]
  · obtain ⟨rest, htr, _⟩ := commitPhases_shape h1 h2 h3
    refine ⟨rest, ?_⟩
    simp only [ScreenResources.apply_new_crtcs, hres]
    exact htr

theorem reconcile_resolves_mode_geometry_witness :
    (∀ c ∈ [exampleSmall], ∃ m,
      ScreenResources.mode [exampleMode8] c.mode = Except.ok m ∧
      c.width = m.width ∧ c.height = m.height) ∧
    ∃ rest,
      (ScreenResources.apply_new_crtcs [exampleMode8] mmZero
          [exampleBig] [exampleSmall]).2 =
        [BackendCall.setCrtcConfig exampleBig.set_disable] ++
          BackendCall.setScreenSize
            { width := 1000, width_mm := 0, height := 500, height_mm := 0 } ::
            rest :=
  reconcile_resolves_mode_geometry [exampleMode8] mmZero [exampleBig]
    [exampleSmall] [exampleSmall] [exampleSmall]
    { width := 1000, width_mm := 0, height := 500, height_mm := 0 }
    [exampleBig.set_disable]
    [BackendCall.setCrtcConfig exampleBig.set_disable] rfl rfl rfl rfl
